import Mathlib

/-!
Verification development for the weft language front end: a shallow
embedding of the token/AST data model, the precedence-climbing parser
(`src/compiler/parse/Parser.ts`) and the tree-walking interpreter
(`src/compiler/Interpreter.ts`), together with theorems settling the
specification's claims about them.

Conventions of the embedding:
* JavaScript exceptions are modelled with `Except`: `RuntimeError` and
  `ParseError` get dedicated constructors carrying the offending token or
  expression, while plain `Error` objects and thrown strings (which the
  `parse`/`interpret` recovery paths do *not* catch) get their own
  constructors.
* Host-provided callables (the pre-seeded binding environment and the
  `new Function(...)` compilation facility) are modelled as indices into a
  semantics parameter `nativeSem : Nat → List Value → Value`; every
  invocation of such a callable is recorded in an event trace, so claims
  about "invoked exactly once, with these arguments, in this order" are
  directly expressible.
* Recursion through closure application is not structural, so the
  evaluator carries fuel; fuel is only consumed when a closure value is
  applied, letting structural facts hold for every fuel.
-/

namespace Weft

/-- Scalar constants of the language (JS primitives that occur as token
literal values and runtime scalars). -/
inductive Primitive where
  | num (n : Int)
  | str (s : String)
  | bool (b : Bool)
  | null
deriving DecidableEq

/-- Operator associativity, from the operator table. -/
inductive Assoc where
  | left
  | right
deriving DecidableEq

/-- Which side of a section the operator is on (`"left" | "right"` in the
source). -/
inductive Side where
  | left
  | right
deriving DecidableEq

/-- Token types consumed by the parser (from `TokenType.ts`, restricted to
the types the parser inspects). -/
inductive TokenType where
  | identifier
  | operator
  | number
  | string
  | leftParen
  | rightParen
  | leftBracket
  | rightBracket
  | comma
  | lineBreak
  | equal
  | colonColon
  | codeLiteral
  | eof
deriving DecidableEq

/-- A token: type, source text, optional literal value and a half-open
source position range (`from`/`to` in the source; renamed because `from`
is a Lean keyword). -/
structure Token where
  type : TokenType
  lexeme : String
  literal : Option Primitive
  fromPos : Nat
  toPos : Nat
deriving DecidableEq

/-- The AST of expressions (`Expr.ts` tagged union, as described by the
data model and as constructed by `Parser.ts`).  `Section` is spelled
`sect` and `Variable` is spelled `var` because both are Lean keywords. -/
inductive Expr where
  | literal (value : Option Primitive) (token : Token)
  | list (items : List Expr)
  | grouping (leftParen : Token) (expression : Expr) (rightParen : Token)
  | binary (left : Expr) (operator : Token) (right : Expr) (precedence : Nat)
  | sect (operator : Token) (expression : Expr) (side : Side)
  | var (name : Token)
  | application (left : Expr) (right : Expr)
  | empty

/-- Statements (`Stmt.ts`). -/
inductive Stmt where
  | expression (expression : Expr)
  | binding (name : Token) (args : List Token) (initializer : Token)

mutual
/-- Runtime values (`type Value = Primitive | Value[] | Function` in the
source, plus the JS values the interpreter inspects: `undefined`, objects
with a `runIO` member, and the external `Pattern` rendering hook).
Functions are defunctionalised: host callables are `native` indices into
the ambient semantics, interpreter-created closures are `closV`. -/
inductive Value where
  | prim (p : Primitive)
  | listV (items : List Value)
  | native (idx : Nat)
  | closV (c : Closure)
  | runnable (id : Nat)
  | pattern (haps : List String)
  | undef

/-- The closures the interpreter itself creates: the one-argument section
closure from the `Section` case of `evaluate` (capturing the operator
token, the *unevaluated* operand expression and the side), and the
argument-prepending closure from `curry` (capturing the remaining spine
and one evaluated argument). -/
inductive Closure where
  | sectionC (op : Token) (expression : Expr) (side : Side)
  | curryC (left : Expr) (arg : Value)
end

/-- A binding environment entry (`{type: string, value: Value}`). -/
structure BindingEntry where
  type : String
  value : Value

/-- The mutable `Bindings` map, modelled as an association list where the
most recent write is found first (last write wins). -/
abbrev Env := List (String × BindingEntry)

/-- Map lookup: the `lexeme in this.bindings` / `this.bindings[lexeme]`
pair. -/
def lookupEnv : Env → String → Option BindingEntry
  | [], _ => none
  | (k, v) :: rest, key => if k = key then some v else lookupEnv rest key

/-- Writing `this.bindings[name] = entry` (overwrites any earlier entry
for `name` as far as `lookupEnv` is concerned). -/
def insertEnv (env : Env) (k : String) (v : BindingEntry) : Env :=
  (k, v) :: env

/-- Observable events of a run: an invocation of a host callable (with its
full argument list), or the `runIO()` effect trigger in `interpret`. -/
inductive Event where
  | call (idx : Nat) (args : List Value)
  | runEffect (id : Nat)

/-- Runtime failures: `RuntimeError` (caught by `interpret`, carries the
offending token), any other thrown `Error`/`TypeError` (uncaught), and
fuel exhaustion (an artifact of the embedding, treated as uncaught). -/
inductive Err where
  | runtime (token : Token) (msg : String)
  | other (msg : String)
  | fuel
deriving DecidableEq

/-- An error report handed to the external sink:
`reporter.error(from, to, message)`. -/
structure Report where
  rfrom : Nat
  rto : Nat
  msg : String
deriving DecidableEq

/-- `Expr.Literal` evaluates to its stored value; an absent literal is JS
`undefined`. -/
def primOrUndef : Option Primitive → Value
  | some p => .prim p
  | none => .undef

section Interp

variable (nativeSem : Nat → List Value → Value)

mutual
/-- `Interpreter.evaluate`, case by case from the source.  Returns the
value together with the trace of host-callable invocations it performed.
The missing `Empty` case of the source's `switch` falls through and
returns `undefined`. -/
def evaluate (fuel : Nat) (env : Env) : Expr → Except Err (Value × List Event)
  | .literal v _ => .ok (primOrUndef v, [])
  | .list items =>
    match evalList fuel env items with
    | .error e => .error e
    | .ok (vs, t) => .ok (.listV vs, t)
  | .grouping _ e _ => evaluate fuel env e
  | .binary l op r _ =>
    match evaluate fuel env l with
    | .error e => .error e
    | .ok (lv, t1) =>
      match evaluate fuel env r with
      | .error e => .error e
      | .ok (rv, t2) =>
        match lookupEnv env op.lexeme with
        | some b =>
          match applyV fuel env b.value [lv, rv] with
          | .error e => .error e
          | .ok (v, t3) => .ok (v, t1 ++ t2 ++ t3)
        | none => .error (.runtime op "Operator isn't implemented")
  | .sect op e side => .ok (.closV (.sectionC op e side), [])
  | .var name =>
    match lookupEnv env name.lexeme with
    | some b => .ok (b.value, [])
    | none =>
      .error (.runtime name
        ("Variable \x22" ++ name.lexeme ++ "\x22 is undefined"))
  | .application l r =>
    match curryF fuel env l with
    | .error e => .error e
    | .ok (f, t1) =>
      match evaluate fuel env r with
      | .error e => .error e
      | .ok (rv, t2) =>
        match applyV fuel env f [rv] with
        | .error e => .error e
        | .ok (v, t3) => .ok (v, t1 ++ t2 ++ t3)
  | .empty => .ok (.undef, [])
termination_by e => (fuel, sizeOf e, 0)

/-- `expr.items.map((e) => this.evaluate(e))`: left-to-right evaluation of
the elements of a list literal. -/
def evalList (fuel : Nat) (env : Env) :
    List Expr → Except Err (List Value × List Event)
  | [] => .ok ([], [])
  | e :: es =>
    match evaluate fuel env e with
    | .error err => .error err
    | .ok (v, t1) =>
      match evalList fuel env es with
      | .error err => .error err
      | .ok (vs, t2) => .ok (v :: vs, t1 ++ t2)
termination_by es => (fuel, sizeOf es, 0)

/-- `Interpreter.curry`: resolve the callee of an application spine.  A
`Variable` or `Section` is evaluated; a `Grouping` is unwrapped; an
`Application` evaluates its right operand now and returns the JS closure
`(...args) => this.curry(func.left)(arg, ...args)`; anything else throws
a plain `Error`. -/
def curryF (fuel : Nat) (env : Env) : Expr → Except Err (Value × List Event)
  | .var name => evaluate fuel env (.var name)
  | .sect op e side => evaluate fuel env (.sect op e side)
  | .grouping _ e _ => curryF fuel env e
  | .application l r =>
    match evaluate fuel env r with
    | .error e => .error e
    | .ok (arg, t) => .ok (.closV (.curryC l arg), t)
  | _ => .error (.other "Unexpected function")
termination_by e => (fuel, sizeOf e, 1)

/-- Calling a JS value with an argument list.  A host callable consumes
the whole list in one call (recorded as an event); the section closure
`(input) => ...` binds `input` to the first argument and ignores the
rest, fetches `this.bindings[op].value` (throwing a `TypeError` if the
operator is unbound) *before* evaluating its operand expression, then
calls the operator with `(input, operand)` or `(operand, input)`; the
curry closure prepends its captured argument and re-enters `curry`;
calling any non-function value throws a `TypeError`. -/
def applyV (fuel : Nat) (env : Env) (v : Value) (args : List Value) :
    Except Err (Value × List Event) :=
  match v with
  | .native i => .ok (nativeSem i args, [.call i args])
  | .closV c =>
    match fuel with
    | 0 => .error .fuel
    | fuel' + 1 =>
      match c with
      | .sectionC op e side =>
        match lookupEnv env op.lexeme with
        | none => .error (.other "TypeError: cannot read value of undefined")
        | some b =>
          match evaluate fuel' env e with
          | .error err => .error err
          | .ok (operand, t1) =>
            let callArgs :=
              match side with
              | .left => [args.headD .undef, operand]
              | .right => [operand, args.headD .undef]
            match applyV fuel' env b.value callArgs with
            | .error err => .error err
            | .ok (v2, t2) => .ok (v2, t1 ++ t2)
      | .curryC l arg =>
        match curryF fuel' env l with
        | .error err => .error err
        | .ok (f, t1) =>
          match applyV fuel' env f (arg :: args) with
          | .error err => .error err
          | .ok (v2, t2) => .ok (v2, t1 ++ t2)
  | _ => .error (.other "TypeError: value is not a function")
termination_by (fuel, 0, 2)
end

end Interp

mutual
/-- `Interpreter.stringify`.  A `Pattern` renders by joining the verbose
texts of its first cycle with `", "`; a `null`-ish value (JS `== null`,
which also matches `undefined`) renders as `"null"`; everything else uses
its JS `toString`, which for an array joins the elements with `","`,
rendering `null`/`undefined` elements as the empty string and functions
as their source text (abstracted here as `"function"`). -/
def stringify : Value → String
  | .pattern haps => String.intercalate ", " haps
  | .prim .null => "null"
  | .undef => "null"
  | .prim (.num n) => toString n
  | .prim (.str s) => s
  | .prim (.bool b) => if b then "true" else "false"
  | .listV items => String.intercalate "," (stringifyItems items)
  | .native _ => "function"
  | .closV _ => "function"
  | .runnable _ => "[object Object]"

/-- Array elements under JS `Array.prototype.toString`. -/
def stringifyItems : List Value → List String
  | [] => []
  | .prim .null :: rest => "" :: stringifyItems rest
  | .undef :: rest => "" :: stringifyItems rest
  | v :: rest => stringify v :: stringifyItems rest
end

section Run

variable (nativeSem : Nat → List Value → Value)
variable (compile : List String → String → Nat)

/-- `Interpreter.execute`.  An `Expression` statement evaluates its
expression; a `Binding` statement compiles the initializer's source text
with the declared argument names into a host callable via the ambient
`new Function` facility (the `compile` parameter), invokes it immediately
when zero arguments were declared, stores the entry under the bound name,
and returns JS `undefined`.  A non-string initializer literal throws a
plain `Error` (not a `RuntimeError`). -/
def execute (fuel : Nat) (env : Env) :
    Stmt → Except Err (Value × Env × List Event)
  | .expression e =>
    match evaluate nativeSem fuel env e with
    | .error err => .error err
    | .ok (v, t) => .ok (v, env, t)
  | .binding name args initializer =>
    match initializer.literal with
    | some (.str src) =>
      let argNames := args.map (fun tok => tok.lexeme)
      let f := compile argNames src
      if args.length > 0 then
        .ok (.undef, insertEnv env name.lexeme ⟨"", .native f⟩, [])
      else
        .ok (.undef, insertEnv env name.lexeme ⟨"", nativeSem f []⟩,
          [.call f []])
    | _ => .error (.other "Initializer doesn't contain a source code string")

/-- The statement loop of `Interpreter.interpret`, with the accumulated
printable results and event trace made explicit.  A successful statement
whose value has a callable `runIO` member is run for effect and not
printed; a JS-`undefined` result is skipped; any other value is
stringified and appended.  A thrown `RuntimeError` is caught: it is
reported to the external sink with the offending token's span and the
results collected so far are returned.  Any other exception propagates
out of `interpret`. -/
def interpretGo (fuel : Nat) (env : Env) (results : List String)
    (trace : List Event) :
    List Stmt → Except Err (List String × Env × List Event × Option Report)
  | [] => .ok (results, env, trace, none)
  | s :: rest =>
    match execute nativeSem compile fuel env s with
    | .ok (v, env2, t) =>
      match v with
      | .runnable id =>
        interpretGo fuel env2 results (trace ++ t ++ [.runEffect id]) rest
      | .undef => interpretGo fuel env2 results (trace ++ t) rest
      | v =>
        interpretGo fuel env2 (results ++ [stringify v]) (trace ++ t) rest
    | .error (.runtime tok msg) =>
      .ok (results, env, trace, some ⟨tok.fromPos, tok.toPos, msg⟩)
    | .error e => .error e

/-- `Interpreter.interpret`: run the batch from empty accumulators. -/
def interpret (fuel : Nat) (env : Env) (statements : List Stmt) :
    Except Err (List String × Env × List Event × Option Report) :=
  interpretGo nativeSem compile fuel env [] [] statements

end Run

/-! ## Parser -/

/-- The operator table: `operators.get(lexeme)` yields
`(precedence, associativity)` or is absent. -/
abbrev Operators := String → Option (Nat × Assoc)

/-- Parser cursor state.  Modelled from the spec: `BaseParser` is not part
of the sources, but the spec fixes its contract (a cursor into the token
stream with Lox-style `peek`/`advance`/`check`/`match`/`consume`
helpers).  The cursor is represented as the consumed prefix (most recent
first) plus the remaining suffix; `tokens = past.reverse ++ rest` and
`current = past.length`. -/
structure PState where
  past : List Token
  rest : List Token

/-- The end-of-input sentinel token (`peek` past the end of the stream). -/
def eofTok : Token := ⟨.eof, "", none, 0, 0⟩

/-- Modelled from the spec: `BaseParser.peek` — the token at the cursor. -/
def peekSt (st : PState) : Token := st.rest.headD eofTok

/-- Modelled from the spec: `BaseParser.peekNext` — one token past the
cursor. -/
def peekNextSt (st : PState) : Token := (st.rest.drop 1).headD eofTok

/-- Modelled from the spec: `BaseParser.previous` — the most recently
consumed token. -/
def previousSt (st : PState) : Token := st.past.headD eofTok

/-- Modelled from the spec: `BaseParser.isAtEnd` — cursor at the EOF
token. -/
abbrev isAtEndSt (st : PState) : Prop := (peekSt st).type = .eof

/-- Modelled from the spec: `BaseParser.advance` — move the cursor one
token forward unless at end (the consumed token becomes `previous`). -/
def advanceSt (st : PState) : PState :=
  if isAtEndSt st then st else ⟨peekSt st :: st.past, st.rest.drop 1⟩

/-- Modelled from the spec: `BaseParser.check` — the lookahead has the
given type (false at end of input). -/
abbrev checkSt (st : PState) (t : TokenType) : Prop :=
  ¬ isAtEndSt st ∧ (peekSt st).type = t

/-- Parser failures: `ParseError` (carries a token or an expression for
span resolution and is caught by the `parse` loop), a plain `Error`
(uncaught), a thrown string (uncaught), and fuel exhaustion (an artifact
of the embedding). -/
inductive PErr where
  | parseErr (source : Sum Token Expr) (msg : String)
  | plainErr (msg : String)
  | strThrow (msg : String)
  | fuel

/-- Result of a parser step: an error, or a value with the advanced
state. -/
abbrev PRes (α : Type) := Except PErr (α × PState)

/-- Modelled from the spec: `BaseParser.consume` — take a token of the
given type or throw a `ParseError` at the lookahead. -/
def consume (st : PState) (t : TokenType) (msg : String) : PRes Token :=
  if checkSt st t then
    let st2 := advanceSt st
    .ok (previousSt st2, st2)
  else .error (.parseErr (.inl (peekSt st)) msg)

mutual
/-- Modelled from the spec: `expressionBounds` from the excluded AST
module — every non-`Empty` expression resolves a source span from its
tokens, composite nodes from their children. -/
def expressionBounds : Expr → Nat × Nat
  | .literal _ t => (t.fromPos, t.toPos)
  | .list items => boundsList items
  | .grouping lp _ rp => (lp.fromPos, rp.toPos)
  | .binary l _ r _ => ((expressionBounds l).1, (expressionBounds r).2)
  | .sect op e .left => (op.fromPos, (expressionBounds e).2)
  | .sect op e .right => ((expressionBounds e).1, op.toPos)
  | .var n => (n.fromPos, n.toPos)
  | .application l r => ((expressionBounds l).1, (expressionBounds r).2)
  | .empty => (0, 0)

/-- Span of a list literal's items (first item's start to last item's
end). -/
def boundsList : List Expr → Nat × Nat
  | [] => (0, 0)
  | [e] => expressionBounds e
  | e :: e2 :: es => ((expressionBounds e).1, (boundsList (e2 :: es)).2)
end

/-- The `expr.type === Expr.Type.Empty` tag test used for missing-operand
detection. -/
def isEmptyE : Expr → Bool
  | .empty => true
  | _ => false

section Parse

variable (ops : Operators)

/-- `Parser.peekFunctionTerm`: may the lookahead start an application
argument? -/
def peekFunctionTerm (st : PState) : Prop :=
  (peekSt st).type = .identifier ∨ (peekSt st).type = .leftParen ∨
  (peekSt st).type = .leftBracket ∨ (peekSt st).type = .number ∨
  (peekSt st).type = .string

instance (st : PState) : Decidable (peekFunctionTerm st) := by
  unfold peekFunctionTerm; infer_instance

mutual
/-- `Parser.functionTerm`: literals, identifiers, list literals, or the
`Empty` marker when nothing matches. -/
def functionTerm (fuel : Nat) (st : PState) : PRes Expr :=
  match fuel with
  | 0 => .error .fuel
  | fuel + 1 =>
    if checkSt st .number ∨ checkSt st .string then
      let st2 := advanceSt st
      .ok (.literal (previousSt st2).literal (previousSt st2), st2)
    else if checkSt st .identifier then
      let st2 := advanceSt st
      .ok (.var (previousSt st2), st2)
    else if checkSt st .leftBracket then
      listLoop fuel [] (advanceSt st)
    else .ok (.empty, st)

/-- The `while (!this.match(RightBracket))` loop of `functionTerm`:
comma-separated items, erroring on end of input. -/
def listLoop (fuel : Nat) (items : List Expr) (st : PState) : PRes Expr :=
  match fuel with
  | 0 => .error .fuel
  | fuel + 1 =>
    if checkSt st .rightBracket then .ok (.list items, advanceSt st)
    else if isAtEndSt st then
      .error (.parseErr (.inl (peekSt st)) "Unterminated list literal")
    else
      let afterComma : Except PErr PState :=
        if items.length > 0 then
          match consume st .comma "Expect ',' after list items" with
          | .error e => .error e
          | .ok (_, st2) => .ok st2
        else .ok st
      match afterComma with
      | .error e => .error e
      | .ok st2 =>
        match expression fuel 0 st2 with
        | .error e => .error e
        | .ok (e, st3) => listLoop fuel (items ++ [e]) st3

/-- `Parser.grouping`: parenthesized forms — bare operator values, unit
(unsupported, throws a raw string, *not* a `ParseError`), operator
sections with the precedence guard, or plain grouping.  Note that the
section guard only fires when the inner expression is literally a
`Binary` node. -/
def grouping (fuel : Nat) (st : PState) : PRes Expr :=
  match fuel with
  | 0 => .error .fuel
  | fuel + 1 =>
    if checkSt st .leftParen then
      let st1 := advanceSt st
      let leftParen := previousSt st1
      let (leftOp, st2) :=
        if (peekSt st1).type = .operator then (some (peekSt st1), advanceSt st1)
        else (none, st1)
      if checkSt st2 .rightParen then
        match leftOp with
        | some op => .ok (.var op, advanceSt st2)
        | none =>
          .error (.strThrow "Encountered unit literal, but unit isn't supported yet")
      else
        match expression fuel 0 st2 with
        | .error e => .error e
        | .ok (expr, st3) =>
          let (rightOp, st4) :=
            if (peekSt st3).type = .operator then
              (some (peekSt st3), advanceSt st3)
            else (none, st3)
          match consume st4 .rightParen "Expect ')' after expression." with
          | .error e => .error e
          | .ok (rightParen, st5) =>
            match leftOp, rightOp with
            | none, none => .ok (.grouping leftParen expr rightParen, st5)
            | some _, some _ =>
              .error (.parseErr (.inl rightParen) "Expect expression.")
            | _, _ =>
              let operator := (leftOp.getD (rightOp.getD eofTok))
              let side : Side := if leftOp.isSome then .left else .right
              match ops operator.lexeme with
              | none =>
                .error (.parseErr (.inl (peekSt st5))
                  ("Undefined operator \x22" ++ (peekSt st5).lexeme ++ "\x22"))
              | some (precedence, _) =>
                match expr with
                | .binary bl bop br bprec =>
                  if bprec < precedence then
                    .error (.parseErr (.inl operator)
                      "Section operator must have lower precedence than expression")
                  else
                    .ok (.grouping leftParen
                      (.sect operator (.binary bl bop br bprec) side)
                      rightParen, st5)
                | expr =>
                  .ok (.grouping leftParen (.sect operator expr side)
                    rightParen, st5)
    else functionTerm fuel st

/-- `Parser.application`: left-associate juxtaposed terms. -/
def application (fuel : Nat) (st : PState) : PRes Expr :=
  match fuel with
  | 0 => .error .fuel
  | fuel + 1 =>
    match grouping fuel st with
    | .error e => .error e
    | .ok (e, st2) => appLoop fuel e st2

/-- The juxtaposition loop of `Parser.application`. -/
def appLoop (fuel : Nat) (expr : Expr) (st : PState) : PRes Expr :=
  match fuel with
  | 0 => .error .fuel
  | fuel + 1 =>
    if peekFunctionTerm st then
      match grouping fuel st with
      | .error e => .error e
      | .ok (right, st2) => appLoop fuel (.application expr right) st2
    else .ok (expr, st)

/-- `Parser.expression`: precedence climbing, starting from one
application term. -/
def expression (fuel : Nat) (precedence : Nat) (st : PState) : PRes Expr :=
  match fuel with
  | 0 => .error .fuel
  | fuel + 1 =>
    match application fuel st with
    | .error e => .error e
    | .ok (left, st2) => exprLoop fuel precedence left st2

/-- The operator loop of `Parser.expression`: while the lookahead is an
operator of table precedence ≥ the minimum that is not immediately
followed by `)`, consume it, parse the right operand at `precedence+1`
(left-associative) or `precedence` (right-associative), check for missing
operands, and fold into `Binary`. -/
def exprLoop (fuel : Nat) (precedence : Nat) (left : Expr) (st : PState) :
    PRes Expr :=
  match fuel with
  | 0 => .error .fuel
  | fuel + 1 =>
    if (peekSt st).type = .operator then
      match ops (peekSt st).lexeme with
      | none =>
        .error (.parseErr (.inl (peekSt st))
          ("Undefined operator \x22" ++ (peekSt st).lexeme ++ "\x22"))
      | some (opPrecedence, opAssociativity) =>
        if opPrecedence < precedence then .ok (left, st)
        else if (peekNextSt st).type = .rightParen then .ok (left, st)
        else
          let st2 := advanceSt st
          let operator := previousSt st2
          match expression fuel
              (if opAssociativity = .left then opPrecedence + 1
               else opPrecedence) st2 with
          | .error e => .error e
          | .ok (right, st3) =>
            let lNull := isEmptyE left
            let rNull := isEmptyE right
            if lNull || rNull then
              .error (.parseErr (.inl operator)
                ("Missing expression " ++ (if lNull then "before" else "") ++
                 (if lNull && rNull then " and " else "") ++
                 (if rNull then "after" else "") ++ " the \x22" ++
                 operator.lexeme ++ "\x22 operator"))
            else
              exprLoop fuel precedence
                (.binary left operator right opPrecedence) st3
    else .ok (left, st)
end

/-- The inner `variable` helper of `Parser.parseFunlhs`: a leg of the
left-hand side must be a bare `Variable`. -/
def varOf : Expr → Except PErr Token
  | .var n => .ok n
  | e =>
    .error (.parseErr (.inr e)
      "Expected variable on the left-hand side of assignment")

/-- `Parser.parseFunlhs`: decompose an already-parsed expression into the
bound name followed by the argument tokens by walking the `Application`
spine left to right; any non-`Variable` leg (including the `Binary`
case, which falls through to the default) is a `ParseError` whose source
is that expression. -/
def parseFunlhs : Expr → Except PErr (List Token)
  | .application l r =>
    match parseFunlhs l with
    | .error e => .error e
    | .ok ls =>
      match varOf r with
      | .error e => .error e
      | .ok v => .ok (ls ++ [v])
  | e =>
    match varOf e with
    | .error e => .error e
    | .ok v => .ok [v]

/-- `Parser.declaration`: one `expression(0)`; a following `::` throws a
plain `Error` (unsupported type annotations — *not* a `ParseError`); a
following `=` reinterprets the expression as a function left-hand side
and requires a code-literal initializer; otherwise an expression
statement. -/
def declaration (fuel : Nat) (st : PState) : PRes Stmt :=
  match fuel with
  | 0 => .error .fuel
  | fuel + 1 =>
    match expression ops fuel 0 st with
    | .error e => .error e
    | .ok (expr, st2) =>
      if (peekSt st2).type = .colonColon then
        .error (.plainErr "Parsing type annotations isn't supported yet")
      else if (peekSt st2).type = .equal then
        match parseFunlhs expr with
        | .error e => .error e
        | .ok [] => .error (.plainErr "unreachable: empty function lhs")
        | .ok (name :: args) =>
          let st3 := advanceSt st2
          match consume st3 .codeLiteral
              "Right-hand sign of an assignment variable must be foreign Javascript block" with
          | .error e => .error e
          | .ok (initializer, st4) => .ok (.binding name args initializer, st4)
      else .ok (.expression expr, st2)

/-- `Parser.statement`: a declaration followed by a line break unless at
end of input. -/
def statementP (fuel : Nat) (st : PState) : PRes Stmt :=
  match fuel with
  | 0 => .error .fuel
  | fuel + 1 =>
    match declaration ops fuel st with
    | .error e => .error e
    | .ok (s, st2) =>
      if isAtEndSt st2 then .ok (s, st2)
      else
        match consume st2 .lineBreak "Expect new line after expression." with
        | .error e => .error e
        | .ok (_, st3) => .ok (s, st3)

/-- The `while (!this.isAtEnd())` loop of `Parser.parse`: skip blank
lines, collect statements, and on the first `ParseError` report it to the
external sink (resolving its span from the token or via
`expressionBounds`) and stop (`synchronize(); break` — the synchronize
step touches only the discarded cursor).  Non-`ParseError` exceptions
propagate. -/
def parseLoop (fuel : Nat) (st : PState) (acc : List Stmt) :
    Except PErr (List Stmt × Option Report) :=
  match fuel with
  | 0 => .error .fuel
  | fuel + 1 =>
    if isAtEndSt st then .ok (acc, none)
    else if checkSt st .lineBreak then parseLoop fuel (advanceSt st) acc
    else
      match statementP ops fuel st with
      | .ok (s, st2) => parseLoop fuel st2 (acc ++ [s])
      | .error (.parseErr src msg) =>
        let span :=
          match src with
          | .inl tok => (tok.fromPos, tok.toPos)
          | .inr e => expressionBounds e
        .ok (acc, some ⟨span.1, span.2, msg⟩)
      | .error e => .error e

/-- `Parser.parse` on a fresh cursor over the given token stream. -/
def parseFn (fuel : Nat) (tokens : List Token) :
    Except PErr (List Stmt × Option Report) :=
  parseLoop ops fuel ⟨[], tokens⟩ []

end Parse

/-! ## Shared material for the claim theorems -/

/-- `UnwrapsTo e e2`: `e` is `e2` under any number of (runtime- and
callee-resolution-transparent) `Grouping` wrappers. -/
inductive UnwrapsTo : Expr → Expr → Prop
  | refl (e : Expr) : UnwrapsTo e e
  | group (lp rp : Token) {e e2 : Expr} (h : UnwrapsTo e e2) :
      UnwrapsTo (.grouping lp e rp) e2

/-- A concrete host-callable semantics for witnesses: callable `i`
returns the number `i`. -/
def demoSem : Nat → List Value → Value := fun i _ => .prim (.num i)

/-- A concrete compilation facility for witnesses. -/
def demoCompile : List String → String → Nat := fun _ _ => 9

/-- Identifier token at a position. -/
def identTok (s : String) (p : Nat) : Token := ⟨.identifier, s, none, p, p + 1⟩

/-- Operator token at a position. -/
def operTok (s : String) (p : Nat) : Token := ⟨.operator, s, none, p, p + 1⟩

/-- Number token at a position. -/
def numTok (n : Int) (p : Nat) : Token :=
  ⟨.number, toString n, some (.num n), p, p + 1⟩

/-- Left parenthesis token at a position. -/
def lparTok (p : Nat) : Token := ⟨.leftParen, "(", none, p, p + 1⟩

/-- Right parenthesis token at a position. -/
def rparTok (p : Nat) : Token := ⟨.rightParen, ")", none, p, p + 1⟩

/-- End-of-input token at a position. -/
def eofAt (p : Nat) : Token := ⟨.eof, "", none, p, p⟩

/-- Operator table for witnesses: `+` at (6, left), `*` at (7, left). -/
def t1ops : Operators := fun s =>
  if s = "+" then some (6, .left)
  else if s = "*" then some (7, .left) else none

/-- Operator table for witnesses: left-associative `-` at precedence 5. -/
def t2ops : Operators := fun s => if s = "-" then some (5, .left) else none

/-- Operator table for witnesses: right-associative `-` at precedence 5. -/
def t3ops : Operators := fun s => if s = "-" then some (5, .right) else none

/-- Operator table with `!` binding strictly tighter than `+`. -/
def c4ops : Operators := fun s =>
  if s = "!" then some (9, .left)
  else if s = "+" then some (6, .left) else none

/-- Operator table with `!` at the same precedence as `+`. -/
def c4lowOps : Operators := fun s =>
  if s = "!" then some (6, .left)
  else if s = "+" then some (6, .left) else none

/-- Line-break token at a position. -/
def lbTok (p : Nat) : Token := ⟨.lineBreak, "\n", none, p, p + 1⟩

/-- `::` token at a position. -/
def ccTok (p : Nat) : Token := ⟨.colonColon, "::", none, p, p + 2⟩

/-- The token stream `x <op1> y <op2> z`. -/
def twoOpToks (s1 o1 s2 o2 s3 : String) : List Token :=
  [identTok s1 0, operTok o1 2, identTok s2 4, operTok o2 6,
   identTok s3 8, eofAt 9]

/-- Identifier token `f` used by application-spine witnesses. -/
def fTok : Token := identTok "f" 0

/-- Environment binding `f` to host callable 0. -/
def w2Env : Env := [("f", ⟨"", .native 0⟩)]

/-- `(f)` — the spine base wrapped in one `Grouping`. -/
def w2E0 : Expr := .grouping (lparTok 0) (.var fTok) (rparTok 2)

/-- `(f) 1`. -/
def w2E1 : Expr := .application w2E0 (.literal (some (.num 1)) (numTok 1 4))

/-- `(f) 1 2`. -/
def w2E2 : Expr := .application w2E1 (.literal (some (.num 2)) (numTok 2 6))

/-- `(f) 1 2 3`. -/
def w2E3 : Expr := .application w2E2 (.literal (some (.num 3)) (numTok 3 8))

/-- Operator token `+` used by the section examples. -/
def plusT : Token := operTok "+" 1

/-- Identifier token `g` used by the section examples. -/
def gTok : Token := identTok "g" 3

/-- Environment binding `+` to host callable 0 and `g` to host
callable 1. -/
def sectEnv : Env := [("+", ⟨"", .native 0⟩), ("g", ⟨"", .native 1⟩)]

/-- The effectful operand expression `g 1` (its evaluation calls host
callable 1, so the event trace shows when it runs). -/
def sectOperand : Expr :=
  .application (.var gTok) (.literal (some (.num 1)) (numTok 1 5))

/-- Environment binding `f`, `g1`, `g2`, `g3` to host callables 0..3. -/
def cexEnv : Env :=
  [("f", ⟨"", .native 0⟩), ("g1", ⟨"", .native 1⟩),
   ("g2", ⟨"", .native 2⟩), ("g3", ⟨"", .native 3⟩)]

/-- The parenthesized operand `(gi k)` — evaluating it calls host
callable `i`, making evaluation order observable in the trace. -/
def gCall (s : String) (p : Nat) (k : Int) : Expr :=
  .grouping (lparTok p)
    (.application (.var (identTok s (p + 1)))
      (.literal (some (.num k)) (numTok k (p + 3))))
    (rparTok (p + 5))

/-- The application spine `f (g1 1) (g2 2) (g3 3)`. -/
def cexSpine : Expr :=
  .application
    (.application (.application (.var (identTok "f" 0)) (gCall "g1" 2 1))
      (gCall "g2" 9 2))
    (gCall "g3" 16 3)

/-! ## Helper lemmas -/

/-- `Grouping` is transparent to both `evaluate` and `curry`. -/
theorem unwrapsTo_evaluate {e e2 : Expr} (h : UnwrapsTo e e2)
    (nativeSem : Nat → List Value → Value) (fuel : Nat) (env : Env) :
    evaluate nativeSem fuel env e = evaluate nativeSem fuel env e2 ∧
    curryF nativeSem fuel env e = curryF nativeSem fuel env e2 := by
  induction h with
  | refl e => exact ⟨rfl, rfl⟩
  | group lp rp h ih =>
    refine ⟨?_, ?_⟩
    · simp only [evaluate]
      exact ih.1
    · simp only [curryF]
      exact ih.2

/-! ## Cursor and parser stepping lemmas -/

theorem previousSt_advance (st : PState) (h : (peekSt st).type ≠ .eof) :
    previousSt (advanceSt st) = peekSt st := by
  unfold advanceSt
  rw [if_neg h]
  simp [previousSt]

theorem peekSt_cons (past : List Token) (t : Token) (rest : List Token) :
    peekSt ⟨past, t :: rest⟩ = t := rfl

theorem peekNextSt_cons (past : List Token) (t t2 : Token)
    (rest : List Token) : peekNextSt ⟨past, t :: t2 :: rest⟩ = t2 := rfl

theorem advanceSt_cons (past : List Token) (t : Token) (rest : List Token)
    (h : t.type ≠ .eof) : advanceSt ⟨past, t :: rest⟩ = ⟨t :: past, rest⟩ := by
  unfold advanceSt
  rw [if_neg (show ¬ isAtEndSt ⟨past, t :: rest⟩ from h)]
  rfl

section ParseSteps

variable (ops : Operators)

theorem functionTerm_ident (fuel f2 : Nat) (past rest : List Token)
    (t : Token) (hf : fuel = f2 + 1) (hid : t.type = .identifier) :
    functionTerm ops fuel ⟨past, t :: rest⟩ = .ok (.var t, ⟨t :: past, rest⟩) := by
  subst hf
  have hne : t.type ≠ .eof := by simp [hid]
  simp [functionTerm, checkSt, isAtEndSt, peekSt_cons, hid,
    advanceSt_cons past t rest hne, previousSt]

theorem grouping_not_paren (fuel f2 : Nat) (st : PState)
    (hf : fuel = f2 + 1) (h : (peekSt st).type ≠ .leftParen) :
    grouping ops fuel st = functionTerm ops f2 st := by
  subst hf
  simp only [grouping]
  rw [if_neg (fun hc => h hc.2)]

theorem appLoop_exit (fuel f2 : Nat) (e : Expr) (st : PState)
    (hf : fuel = f2 + 1) (h : ¬ peekFunctionTerm st) :
    appLoop ops fuel e st = .ok (e, st) := by
  subst hf
  simp only [appLoop]
  rw [if_neg h]

theorem application_ident (fuel f2 : Nat) (past rest : List Token)
    (t : Token) (hf : fuel = f2 + 3) (hid : t.type = .identifier)
    (hnext : ¬ peekFunctionTerm ⟨t :: past, rest⟩) :
    application ops fuel ⟨past, t :: rest⟩ =
      .ok (.var t, ⟨t :: past, rest⟩) := by
  subst hf
  simp only [application]
  rw [grouping_not_paren ops (f2 + 2) (f2 + 1) _ rfl (by simp [peekSt_cons, hid]),
    functionTerm_ident ops (f2 + 1) f2 past rest t rfl hid]
  exact appLoop_exit ops (f2 + 2) (f2 + 1) _ _ rfl hnext

theorem expression_eval (fuel f2 prec : Nat) (st st2 : PState) (left : Expr)
    (res : PRes Expr) (hf : fuel = f2 + 1)
    (ha : application ops f2 st = .ok (left, st2))
    (hl : exprLoop ops f2 prec left st2 = res) :
    expression ops fuel prec st = res := by
  subst hf
  simp only [expression, ha, hl]

theorem application_err (fuel f2 : Nat) (st : PState) (e : PErr)
    (hf : fuel = f2 + 1) (hg : grouping ops f2 st = .error e) :
    application ops fuel st = .error e := by
  subst hf
  simp only [application, hg]

theorem expression_err (fuel f2 prec : Nat) (st : PState) (e : PErr)
    (hf : fuel = f2 + 1) (ha : application ops f2 st = .error e) :
    expression ops fuel prec st = .error e := by
  subst hf
  simp only [expression, ha]

theorem exprLoop_exit_not_op (fuel f2 prec : Nat) (left : Expr)
    (past rest : List Token) (t : Token) (hf : fuel = f2 + 1)
    (h : t.type ≠ .operator) :
    exprLoop ops fuel prec left ⟨past, t :: rest⟩ =
      .ok (left, ⟨past, t :: rest⟩) := by
  subst hf
  simp only [exprLoop]
  rw [if_neg (by simpa [peekSt_cons] using h)]

theorem exprLoop_exit_low (fuel f2 prec opPrec : Nat) (assoc : Assoc)
    (left : Expr) (past rest : List Token) (t : Token) (hf : fuel = f2 + 1)
    (ht : t.type = .operator) (hop : ops t.lexeme = some (opPrec, assoc))
    (hlow : opPrec < prec) :
    exprLoop ops fuel prec left ⟨past, t :: rest⟩ =
      .ok (left, ⟨past, t :: rest⟩) := by
  subst hf
  simp only [exprLoop, peekSt_cons]
  rw [if_pos ht, hop]
  simp only [if_pos hlow]

theorem exprLoop_step (fuel f2 prec opPrec : Nat) (assoc : Assoc)
    (left right : Expr) (past rest : List Token) (t : Token) (st3 : PState)
    (hf : fuel = f2 + 1) (ht : t.type = .operator)
    (hop : ops t.lexeme = some (opPrec, assoc))
    (hge : ¬ opPrec < prec)
    (hnp : (peekNextSt ⟨past, t :: rest⟩).type ≠ .rightParen)
    (hr : expression ops f2
      (if assoc = .left then opPrec + 1 else opPrec) ⟨t :: past, rest⟩ =
      .ok (right, st3))
    (hle : isEmptyE left = false) (hre : isEmptyE right = false) :
    exprLoop ops fuel prec left ⟨past, t :: rest⟩ =
      exprLoop ops f2 prec (.binary left t right opPrec) st3 := by
  subst hf
  have hne : t.type ≠ .eof := by simp [ht]
  simp only [exprLoop, peekSt_cons]
  rw [if_pos ht, hop]
  simp only [if_neg hge, if_neg hnp, advanceSt_cons past t rest hne,
    previousSt, List.headD_cons, hr, hle, hre]
  simp

theorem declaration_expr (fuel f2 : Nat) (st st2 : PState) (e : Expr)
    (hf : fuel = f2 + 1)
    (he : expression ops f2 0 st = .ok (e, st2))
    (hcc : (peekSt st2).type ≠ .colonColon)
    (heq : (peekSt st2).type ≠ .equal) :
    declaration ops fuel st = .ok (.expression e, st2) := by
  subst hf
  simp only [declaration, he]
  rw [if_neg hcc, if_neg heq]

theorem declaration_err (fuel f2 : Nat) (st : PState) (err : PErr)
    (hf : fuel = f2 + 1) (he : expression ops f2 0 st = .error err) :
    declaration ops fuel st = .error err := by
  subst hf
  simp only [declaration, he]

theorem statement_atEnd (fuel f2 : Nat) (st st2 : PState) (s : Stmt)
    (hf : fuel = f2 + 1) (hd : declaration ops f2 st = .ok (s, st2))
    (hend : isAtEndSt st2) :
    statementP ops fuel st = .ok (s, st2) := by
  subst hf
  simp only [statementP, hd]
  rw [if_pos hend]

theorem statement_err (fuel f2 : Nat) (st : PState) (err : PErr)
    (hf : fuel = f2 + 1) (hd : declaration ops f2 st = .error err) :
    statementP ops fuel st = .error err := by
  subst hf
  simp only [statementP, hd]

theorem parseLoop_end (fuel f2 : Nat) (st : PState) (acc : List Stmt)
    (hf : fuel = f2 + 1) (hend : isAtEndSt st) :
    parseLoop ops fuel st acc = .ok (acc, none) := by
  subst hf
  simp only [parseLoop]
  rw [if_pos hend]

theorem parseLoop_stmt (fuel f2 : Nat) (st st2 : PState) (s : Stmt)
    (acc : List Stmt) (hf : fuel = f2 + 1) (hne : ¬ isAtEndSt st)
    (hnl : (peekSt st).type ≠ .lineBreak)
    (hs : statementP ops f2 st = .ok (s, st2)) :
    parseLoop ops fuel st acc = parseLoop ops f2 st2 (acc ++ [s]) := by
  subst hf
  simp only [parseLoop]
  rw [if_neg hne, if_neg (fun hc => hnl hc.2), hs]

theorem parseLoop_err (fuel f2 : Nat) (st : PState) (acc : List Stmt)
    (tok : Token) (msg : String) (hf : fuel = f2 + 1) (hne : ¬ isAtEndSt st)
    (hnl : (peekSt st).type ≠ .lineBreak)
    (hs : statementP ops f2 st = .error (.parseErr (.inl tok) msg)) :
    parseLoop ops fuel st acc =
      .ok (acc, some ⟨tok.fromPos, tok.toPos, msg⟩) := by
  subst hf
  simp only [parseLoop]
  rw [if_neg hne, if_neg (fun hc => hnl hc.2), hs]

end ParseSteps

/-- One `application` evaluation step. -/
theorem application_eval (ops : Operators) (fuel f2 : Nat) (st st2 : PState)
    (e : Expr) (res : PRes Expr) (hf : fuel = f2 + 1)
    (hg : grouping ops f2 st = .ok (e, st2))
    (hl : appLoop ops f2 e st2 = res) :
    application ops fuel st = res := by
  subst hf
  simp only [application, hg, hl]

/-- Parsing the two-operator stream `x <op1> y <op2> z`: the second
operator joins the right operand of the first exactly when its table
precedence reaches the climb threshold `p1 + 1` (left-associative
`op1`) or `p1` (right-associative). -/
theorem twoOpParse (ops : Operators) (s1 o1 s2 o2 s3 : String)
    (p1 p2 : Nat) (a1 a2 : Assoc)
    (h1 : ops o1 = some (p1, a1)) (h2 : ops o2 = some (p2, a2)) :
    (p2 < (if a1 = .left then p1 + 1 else p1) →
      parseFn ops 32 (twoOpToks s1 o1 s2 o2 s3) =
        .ok ([.expression (.binary
          (.binary (.var (identTok s1 0)) (operTok o1 2)
            (.var (identTok s2 4)) p1)
          (operTok o2 6) (.var (identTok s3 8)) p2)], none)) ∧
    (¬ p2 < (if a1 = .left then p1 + 1 else p1) →
      parseFn ops 32 (twoOpToks s1 o1 s2 o2 s3) =
        .ok ([.expression (.binary (.var (identTok s1 0)) (operTok o1 2)
          (.binary (.var (identTok s2 4)) (operTok o2 6)
            (.var (identTok s3 8)) p2) p1)], none)) := by
  have hty1 : (identTok s1 0).type = .identifier := rfl
  have hty2 : (identTok s2 4).type = .identifier := rfl
  have hty3 : (identTok s3 8).type = .identifier := rfl
  have hto1 : (operTok o1 2).type = .operator := rfl
  have hto2 : (operTok o2 6).type = .operator := rfl
  have hlex1 : (operTok o1 2).lexeme = o1 := rfl
  have hlex2 : (operTok o2 6).lexeme = o2 := rfl
  have hA0 : application ops 28
      ⟨[], [identTok s1 0, operTok o1 2, identTok s2 4, operTok o2 6,
        identTok s3 8, eofAt 9]⟩ =
      .ok (.var (identTok s1 0),
        ⟨[identTok s1 0], [operTok o1 2, identTok s2 4, operTok o2 6,
          identTok s3 8, eofAt 9]⟩) :=
    application_ident ops 28 25 _ _ _ (by norm_num) hty1
      (by simp [peekFunctionTerm, peekSt, operTok])
  have hA1 : application ops 26
      ⟨[operTok o1 2, identTok s1 0],
       [identTok s2 4, operTok o2 6, identTok s3 8, eofAt 9]⟩ =
      .ok (.var (identTok s2 4),
        ⟨[identTok s2 4, operTok o1 2, identTok s1 0],
         [operTok o2 6, identTok s3 8, eofAt 9]⟩) :=
    application_ident ops 26 23 _ _ _ (by norm_num) hty2
      (by simp [peekFunctionTerm, peekSt, operTok])
  constructor
  · -- left-associated outcome
    intro hlow
    have hInner : expression ops 27 (if a1 = .left then p1 + 1 else p1)
        ⟨[operTok o1 2, identTok s1 0],
         [identTok s2 4, operTok o2 6, identTok s3 8, eofAt 9]⟩ =
        .ok (.var (identTok s2 4),
          ⟨[identTok s2 4, operTok o1 2, identTok s1 0],
           [operTok o2 6, identTok s3 8, eofAt 9]⟩) :=
      expression_eval ops 27 26 _ _ _ _ _ (by norm_num) hA1
        (exprLoop_exit_low ops 26 25 _ p2 a2 _ _ _ _ (by norm_num) hto2
          (by rw [hlex2]; exact h2) hlow)
    have hA2 : application ops 25
        ⟨[operTok o2 6, identTok s2 4, operTok o1 2, identTok s1 0],
         [identTok s3 8, eofAt 9]⟩ =
        .ok (.var (identTok s3 8),
          ⟨[identTok s3 8, operTok o2 6, identTok s2 4, operTok o1 2,
            identTok s1 0], [eofAt 9]⟩) :=
      application_ident ops 25 22 _ _ _ (by norm_num) hty3
        (by simp [peekFunctionTerm, peekSt, eofAt])
    have hE2 : expression ops 26 (if a2 = .left then p2 + 1 else p2)
        ⟨[operTok o2 6, identTok s2 4, operTok o1 2, identTok s1 0],
         [identTok s3 8, eofAt 9]⟩ =
        .ok (.var (identTok s3 8),
          ⟨[identTok s3 8, operTok o2 6, identTok s2 4, operTok o1 2,
            identTok s1 0], [eofAt 9]⟩) :=
      expression_eval ops 26 25 _ _ _ _ _ (by norm_num) hA2
        (exprLoop_exit_not_op ops 25 24 _ _ _ _ _ (by norm_num)
          (by simp [eofAt]))
    have hLoop : exprLoop ops 28 0 (.var (identTok s1 0))
        ⟨[identTok s1 0], [operTok o1 2, identTok s2 4, operTok o2 6,
          identTok s3 8, eofAt 9]⟩ =
        .ok (.binary
          (.binary (.var (identTok s1 0)) (operTok o1 2)
            (.var (identTok s2 4)) p1)
          (operTok o2 6) (.var (identTok s3 8)) p2,
          ⟨[identTok s3 8, operTok o2 6, identTok s2 4, operTok o1 2,
            identTok s1 0], [eofAt 9]⟩) := by
      rw [exprLoop_step ops 28 27 0 p1 a1 (.var (identTok s1 0))
        (.var (identTok s2 4)) [identTok s1 0]
        [identTok s2 4, operTok o2 6, identTok s3 8, eofAt 9]
        (operTok o1 2) _ (by norm_num) hto1 (by rw [hlex1]; exact h1)
        (by omega) (by simp [peekNextSt, identTok]) hInner rfl rfl]
      rw [exprLoop_step ops 27 26 0 p2 a2
        (.binary (.var (identTok s1 0)) (operTok o1 2)
          (.var (identTok s2 4)) p1) (.var (identTok s3 8))
        [identTok s2 4, operTok o1 2, identTok s1 0]
        [identTok s3 8, eofAt 9] (operTok o2 6) _ (by norm_num) hto2
        (by rw [hlex2]; exact h2) (by omega)
        (by simp [peekNextSt, identTok]) hE2 rfl rfl]
      exact exprLoop_exit_not_op ops 26 25 _ _ _ _ _ (by norm_num)
        (by simp [eofAt])
    have hS : statementP ops 31
        ⟨[], [identTok s1 0, operTok o1 2, identTok s2 4, operTok o2 6,
          identTok s3 8, eofAt 9]⟩ =
        .ok (.expression (.binary
          (.binary (.var (identTok s1 0)) (operTok o1 2)
            (.var (identTok s2 4)) p1)
          (operTok o2 6) (.var (identTok s3 8)) p2),
          ⟨[identTok s3 8, operTok o2 6, identTok s2 4, operTok o1 2,
            identTok s1 0], [eofAt 9]⟩) :=
      statement_atEnd ops 31 30 _ _ _ (by norm_num)
        (declaration_expr ops 30 29 _ _ _ (by norm_num)
          (expression_eval ops 29 28 _ _ _ _ _ (by norm_num) hA0 hLoop)
          (by simp [peekSt, eofAt]) (by simp [peekSt, eofAt]))
        (by simp [isAtEndSt, peekSt, eofAt])
    unfold parseFn twoOpToks
    rw [parseLoop_stmt ops 32 31 _ _ _ _ (by norm_num)
      (by simp [isAtEndSt, peekSt, identTok])
      (by simp [peekSt, identTok]) hS]
    exact parseLoop_end ops 31 30 _ _ (by norm_num)
      (by simp [isAtEndSt, peekSt, eofAt])
  · -- right-associated outcome
    intro hge
    have hA2 : application ops 24
        ⟨[operTok o2 6, identTok s2 4, operTok o1 2, identTok s1 0],
         [identTok s3 8, eofAt 9]⟩ =
        .ok (.var (identTok s3 8),
          ⟨[identTok s3 8, operTok o2 6, identTok s2 4, operTok o1 2,
            identTok s1 0], [eofAt 9]⟩) :=
      application_ident ops 24 21 _ _ _ (by norm_num) hty3
        (by simp [peekFunctionTerm, peekSt, eofAt])
    have hE2 : expression ops 25 (if a2 = .left then p2 + 1 else p2)
        ⟨[operTok o2 6, identTok s2 4, operTok o1 2, identTok s1 0],
         [identTok s3 8, eofAt 9]⟩ =
        .ok (.var (identTok s3 8),
          ⟨[identTok s3 8, operTok o2 6, identTok s2 4, operTok o1 2,
            identTok s1 0], [eofAt 9]⟩) :=
      expression_eval ops 25 24 _ _ _ _ _ (by norm_num) hA2
        (exprLoop_exit_not_op ops 24 23 _ _ _ _ _ (by norm_num)
          (by simp [eofAt]))
    have hInner : expression ops 27 (if a1 = .left then p1 + 1 else p1)
        ⟨[operTok o1 2, identTok s1 0],
         [identTok s2 4, operTok o2 6, identTok s3 8, eofAt 9]⟩ =
        .ok (.binary (.var (identTok s2 4)) (operTok o2 6)
          (.var (identTok s3 8)) p2,
          ⟨[identTok s3 8, operTok o2 6, identTok s2 4, operTok o1 2,
            identTok s1 0], [eofAt 9]⟩) := by
      refine expression_eval ops 27 26 _ _ _ _ _ (by norm_num) hA1 ?_
      rw [exprLoop_step ops 26 25 _ p2 a2 (.var (identTok s2 4))
        (.var (identTok s3 8)) [identTok s2 4, operTok o1 2, identTok s1 0]
        [identTok s3 8, eofAt 9] (operTok o2 6) _ (by norm_num) hto2
        (by rw [hlex2]; exact h2) hge (by simp [peekNextSt, identTok])
        hE2 rfl rfl]
      exact exprLoop_exit_not_op ops 25 24 _ _ _ _ _ (by norm_num)
        (by simp [eofAt])
    have hLoop : exprLoop ops 28 0 (.var (identTok s1 0))
        ⟨[identTok s1 0], [operTok o1 2, identTok s2 4, operTok o2 6,
          identTok s3 8, eofAt 9]⟩ =
        .ok (.binary (.var (identTok s1 0)) (operTok o1 2)
          (.binary (.var (identTok s2 4)) (operTok o2 6)
            (.var (identTok s3 8)) p2) p1,
          ⟨[identTok s3 8, operTok o2 6, identTok s2 4, operTok o1 2,
            identTok s1 0], [eofAt 9]⟩) := by
      rw [exprLoop_step ops 28 27 0 p1 a1 (.var (identTok s1 0))
        (.binary (.var (identTok s2 4)) (operTok o2 6)
          (.var (identTok s3 8)) p2) [identTok s1 0]
        [identTok s2 4, operTok o2 6, identTok s3 8, eofAt 9]
        (operTok o1 2) _ (by norm_num) hto1 (by rw [hlex1]; exact h1)
        (by omega) (by simp [peekNextSt, identTok]) hInner rfl rfl]
      exact exprLoop_exit_not_op ops 27 26 _ _ _ _ _ (by norm_num)
        (by simp [eofAt])
    have hS : statementP ops 31
        ⟨[], [identTok s1 0, operTok o1 2, identTok s2 4, operTok o2 6,
          identTok s3 8, eofAt 9]⟩ =
        .ok (.expression (.binary (.var (identTok s1 0)) (operTok o1 2)
          (.binary (.var (identTok s2 4)) (operTok o2 6)
            (.var (identTok s3 8)) p2) p1),
          ⟨[identTok s3 8, operTok o2 6, identTok s2 4, operTok o1 2,
            identTok s1 0], [eofAt 9]⟩) :=
      statement_atEnd ops 31 30 _ _ _ (by norm_num)
        (declaration_expr ops 30 29 _ _ _ (by norm_num)
          (expression_eval ops 29 28 _ _ _ _ _ (by norm_num) hA0 hLoop)
          (by simp [peekSt, eofAt]) (by simp [peekSt, eofAt]))
        (by simp [isAtEndSt, peekSt, eofAt])
    unfold parseFn twoOpToks
    rw [parseLoop_stmt ops 32 31 _ _ _ _ (by norm_num)
      (by simp [isAtEndSt, peekSt, identTok])
      (by simp [peekSt, identTok]) hS]
    exact parseLoop_end ops 31 30 _ _ (by norm_num)
      (by simp [isAtEndSt, peekSt, eofAt])


/-- `grouping` on the section stream `( ! a + b )`: the inner
expression is a `Binary` node, so the precedence guard fires exactly
when `+` binds strictly looser than `!`. -/
theorem c4grouping (ops : Operators) (po pp : Nat) (aO aP : Assoc)
    (hbang : ops "!" = some (po, aO)) (hplus : ops "+" = some (pp, aP)) :
    grouping ops 27 ⟨[], [lparTok 0, operTok "!" 1, identTok "a" 2,
      operTok "+" 4, identTok "b" 6, rparTok 7, eofAt 8]⟩ =
      if pp < po then
        .error (.parseErr (.inl (operTok "!" 1))
          "Section operator must have lower precedence than expression")
      else
        .ok (.grouping (lparTok 0)
          (.sect (operTok "!" 1)
            (.binary (.var (identTok "a" 2)) (operTok "+" 4)
              (.var (identTok "b" 6)) pp) .left) (rparTok 7),
          ⟨[rparTok 7, identTok "b" 6, operTok "+" 4, identTok "a" 2,
            operTok "!" 1, lparTok 0], [eofAt 8]⟩) := by
  have hInner : expression ops 26 0
      ⟨[operTok "!" 1, lparTok 0],
       [identTok "a" 2, operTok "+" 4, identTok "b" 6, rparTok 7, eofAt 8]⟩ =
      .ok (.binary (.var (identTok "a" 2)) (operTok "+" 4)
        (.var (identTok "b" 6)) pp,
        ⟨[identTok "b" 6, operTok "+" 4, identTok "a" 2, operTok "!" 1,
          lparTok 0], [rparTok 7, eofAt 8]⟩) := by
    refine expression_eval ops 26 25 _ _ _ _ _ (by norm_num)
      (application_ident ops 25 22 _ _ _ (by norm_num) rfl
        (by simp [peekFunctionTerm, peekSt, operTok])) ?_
    rw [exprLoop_step ops 25 24 0 pp aP (.var (identTok "a" 2))
      (.var (identTok "b" 6)) [identTok "a" 2, operTok "!" 1, lparTok 0]
      [identTok "b" 6, rparTok 7, eofAt 8] (operTok "+" 4) _ (by norm_num)
      rfl hplus (by omega) (by simp [peekNextSt, identTok])
      (expression_eval ops 24 23 _ _ _ _ _ (by norm_num)
        (application_ident ops 23 20 _ _ _ (by norm_num) rfl
          (by simp [peekFunctionTerm, peekSt, rparTok]))
        (exprLoop_exit_not_op ops 23 22 _ _ _ _ _ (by norm_num)
          (by simp [rparTok]))) rfl rfl]
    exact exprLoop_exit_not_op ops 24 23 _ _ _ _ _ (by norm_num)
      (by simp [rparTok])
  have hlp : (lparTok 0).type = .leftParen := rfl
  have hbg : (operTok "!" 1).type = .operator := rfl
  have ha2 : (identTok "a" 2).type = .identifier := rfl
  have hp4 : (operTok "+" 4).type = .operator := rfl
  have hb6 : (identTok "b" 6).type = .identifier := rfl
  have hrp : (rparTok 7).type = .rightParen := rfl
  have heo : (eofAt 8).type = .eof := rfl
  have hlex : (operTok "!" 1).lexeme = "!" := rfl
  simp only [grouping]
  simp [peekSt_cons, peekNextSt_cons, advanceSt_cons, previousSt, checkSt,
    isAtEndSt, consume, List.headD_cons, hlp, hbg, ha2, hp4, hb6, hrp, heo,
    hlex, hInner, hbang]



/-! ## Parser claims -/

/-- C1: Parsing respects the supplied operator table's precedence and
associativity exactly: `a + b * c` with `*` at strictly higher
precedence parses as `Binary(a, +, Binary(b, *, c))`; with a
left-associative `-`, `a - b - c` parses as
`Binary(Binary(a, -, b), -, c)`; with a right-associative `-` of the
same precedence the nesting is reversed, `a - (b - c)`. -/
theorem parse_respects_precedence_and_associativity (sx sy sz : String) :
    (∀ (ops : Operators) (p q : Nat) (aP aQ : Assoc),
      ops "+" = some (p, aP) → ops "*" = some (q, aQ) → p < q →
      parseFn ops 32 (twoOpToks sx "+" sy "*" sz) =
        .ok ([.expression (.binary (.var (identTok sx 0)) (operTok "+" 2)
          (.binary (.var (identTok sy 4)) (operTok "*" 6)
            (.var (identTok sz 8)) q) p)], none)) ∧
    (∀ (ops : Operators) (p : Nat),
      ops "-" = some (p, .left) →
      parseFn ops 32 (twoOpToks sx "-" sy "-" sz) =
        .ok ([.expression (.binary
          (.binary (.var (identTok sx 0)) (operTok "-" 2)
            (.var (identTok sy 4)) p)
          (operTok "-" 6) (.var (identTok sz 8)) p)], none)) ∧
    (∀ (ops : Operators) (p : Nat),
      ops "-" = some (p, .right) →
      parseFn ops 32 (twoOpToks sx "-" sy "-" sz) =
        .ok ([.expression (.binary (.var (identTok sx 0)) (operTok "-" 2)
          (.binary (.var (identTok sy 4)) (operTok "-" 6)
            (.var (identTok sz 8)) p) p)], none)) := by
  refine ⟨?_, ?_, ?_⟩
  · intro ops p q aP aQ h1 h2 hpq
    exact (twoOpParse ops sx "+" sy "*" sz p q aP aQ h1 h2).2
      (by cases aP <;> simp <;> omega)
  · intro ops p h
    exact (twoOpParse ops sx "-" sy "-" sz p p .left .left h h).1 (by simp)
  · intro ops p h
    exact (twoOpParse ops sx "-" sy "-" sz p p .right .right h h).2 (by simp)

/-- Witness for C1 at the concrete tables `t1ops`, `t2ops`, `t3ops` and
identifiers `a b c`. -/
theorem parse_respects_precedence_and_associativity_witness :
    t1ops "+" = some (6, .left) ∧ t1ops "*" = some (7, .left) ∧
    t2ops "-" = some (5, .left) ∧ t3ops "-" = some (5, .right) ∧
    parseFn t1ops 32 (twoOpToks "a" "+" "b" "*" "c") =
      .ok ([.expression (.binary (.var (identTok "a" 0)) (operTok "+" 2)
        (.binary (.var (identTok "b" 4)) (operTok "*" 6)
          (.var (identTok "c" 8)) 7) 6)], none) ∧
    parseFn t2ops 32 (twoOpToks "a" "-" "b" "-" "c") =
      .ok ([.expression (.binary
        (.binary (.var (identTok "a" 0)) (operTok "-" 2)
          (.var (identTok "b" 4)) 5)
        (operTok "-" 6) (.var (identTok "c" 8)) 5)], none) ∧
    parseFn t3ops 32 (twoOpToks "a" "-" "b" "-" "c") =
      .ok ([.expression (.binary (.var (identTok "a" 0)) (operTok "-" 2)
        (.binary (.var (identTok "b" 4)) (operTok "-" 6)
          (.var (identTok "c" 8)) 5) 5)], none) := by
  have h := parse_respects_precedence_and_associativity "a" "b" "c"
  have e1 : t1ops "+" = some (6, .left) := by simp [t1ops]
  have e2 : t1ops "*" = some (7, .left) := by simp [t1ops]
  have e3 : t2ops "-" = some (5, .left) := by simp [t2ops]
  have e4 : t3ops "-" = some (5, .right) := by simp [t3ops]
  exact ⟨e1, e2, e3, e4, h.1 t1ops 6 7 .left .left e1 e2 (by norm_num),
    h.2.1 t2ops 5 e3, h.2.2 t3ops 5 e4⟩


/-- C4 counterexample: the claim says `(op (a + b))` with `op` at strictly
higher table precedence than `+` is rejected, but with the explicit inner
parentheses the inner expression is a `Grouping` node, the `Binary`-only
guard never fires, and the parse succeeds with no report (here `!` at
precedence 9 over `+` at 6). -/
theorem section_guard_grouped_operand_accepted :
    parseFn c4ops 32 [lparTok 0, operTok "!" 1, lparTok 2, identTok "a" 3,
      operTok "+" 5, identTok "b" 7, rparTok 8, rparTok 9, eofAt 10] =
      .ok ([.expression (.grouping (lparTok 0)
        (.sect (operTok "!" 1)
          (.grouping (lparTok 2)
            (.binary (.var (identTok "a" 3)) (operTok "+" 5)
              (.var (identTok "b" 7)) 6)
            (rparTok 8)) .left)
        (rparTok 9))], none) := by
  rfl

/-- C4 (amended): a section whose inner expression is literally a `Binary`
node with strictly lower cached precedence than the section operator's
table precedence is a parse error, reported at the operator token; with
the operator's precedence ≤ the operand's it is accepted: `( ! a + b )`
is rejected iff `+`'s precedence < `!`'s. -/
theorem section_guard_binary_operand (ops : Operators) (po pp : Nat)
    (aO aP : Assoc) (hbang : ops "!" = some (po, aO))
    (hplus : ops "+" = some (pp, aP)) :
    (pp < po →
      parseFn ops 32 [lparTok 0, operTok "!" 1, identTok "a" 2,
        operTok "+" 4, identTok "b" 6, rparTok 7, eofAt 8] =
        .ok ([], some ⟨1, 2,
          "Section operator must have lower precedence than expression"⟩)) ∧
    (po ≤ pp →
      parseFn ops 32 [lparTok 0, operTok "!" 1, identTok "a" 2,
        operTok "+" 4, identTok "b" 6, rparTok 7, eofAt 8] =
        .ok ([.expression (.grouping (lparTok 0)
          (.sect (operTok "!" 1)
            (.binary (.var (identTok "a" 2)) (operTok "+" 4)
              (.var (identTok "b" 6)) pp) .left)
          (rparTok 7))], none)) := by
  constructor
  · intro hlt
    have hGr : grouping ops 27 ⟨[], [lparTok 0, operTok "!" 1,
        identTok "a" 2, operTok "+" 4, identTok "b" 6, rparTok 7, eofAt 8]⟩ =
        .error (.parseErr (.inl (operTok "!" 1))
          "Section operator must have lower precedence than expression") := by
      rw [c4grouping ops po pp aO aP hbang hplus, if_pos hlt]
    unfold parseFn
    have hS := statement_err ops 31 30 _ _ rfl
      (declaration_err ops 30 29 _ _ rfl
        (expression_err ops 29 28 0 _ _ rfl
          (application_err ops 28 27 _ _ rfl hGr)))
    have := parseLoop_err ops 32 31 _ [] (operTok "!" 1)
      "Section operator must have lower precedence than expression"
      (by norm_num) (by simp [isAtEndSt, peekSt, lparTok])
      (by simp [peekSt, lparTok]) hS
    simpa [operTok] using this
  · intro hle
    have hGr : grouping ops 27 ⟨[], [lparTok 0, operTok "!" 1,
        identTok "a" 2, operTok "+" 4, identTok "b" 6, rparTok 7, eofAt 8]⟩ =
        .ok (.grouping (lparTok 0)
          (.sect (operTok "!" 1)
            (.binary (.var (identTok "a" 2)) (operTok "+" 4)
              (.var (identTok "b" 6)) pp) .left) (rparTok 7),
          ⟨[rparTok 7, identTok "b" 6, operTok "+" 4, identTok "a" 2,
            operTok "!" 1, lparTok 0], [eofAt 8]⟩) := by
      rw [c4grouping ops po pp aO aP hbang hplus, if_neg (by omega)]
    unfold parseFn
    rw [parseLoop_stmt ops 32 31 _ _ _ _ (by norm_num)
      (by simp [isAtEndSt, peekSt, lparTok]) (by simp [peekSt, lparTok])
      (statement_atEnd ops 31 30 _ _ _ (by norm_num)
        (declaration_expr ops 30 29 _ _ _ (by norm_num)
          (expression_eval ops 29 28 _ _ _ _ _ (by norm_num)
            (application_eval ops 28 27 _ _ _ _ (by norm_num) hGr
              (appLoop_exit ops 27 26 _ _ (by norm_num)
                (by simp [peekFunctionTerm, peekSt, eofAt])))
            (exprLoop_exit_not_op ops 28 27 _ _ _ _ _ (by norm_num)
              (by simp [eofAt])))
          (by simp [peekSt, eofAt]) (by simp [peekSt, eofAt]))
        (by simp [isAtEndSt, peekSt, eofAt]))]
    exact parseLoop_end ops 31 30 _ _ (by norm_num)
      (by simp [isAtEndSt, peekSt, eofAt])

/-- Witness for C4's amended theorem at the concrete tables `c4ops`
(9 over 6: rejected) and `c4lowOps` (6 and 6: accepted). -/
theorem section_guard_binary_operand_witness :
    c4ops "!" = some (9, .left) ∧ c4ops "+" = some (6, .left) ∧
    c4lowOps "!" = some (6, .left) ∧ c4lowOps "+" = some (6, .left) ∧
    parseFn c4ops 32 [lparTok 0, operTok "!" 1, identTok "a" 2,
      operTok "+" 4, identTok "b" 6, rparTok 7, eofAt 8] =
      .ok ([], some ⟨1, 2,
        "Section operator must have lower precedence than expression"⟩) ∧
    parseFn c4lowOps 32 [lparTok 0, operTok "!" 1, identTok "a" 2,
      operTok "+" 4, identTok "b" 6, rparTok 7, eofAt 8] =
      .ok ([.expression (.grouping (lparTok 0)
        (.sect (operTok "!" 1)
          (.binary (.var (identTok "a" 2)) (operTok "+" 4)
            (.var (identTok "b" 6)) 6) .left)
        (rparTok 7))], none) := by
  have e1 : c4ops "!" = some (9, .left) := by simp [c4ops]
  have e2 : c4ops "+" = some (6, .left) := by simp [c4ops]
  have e3 : c4lowOps "!" = some (6, .left) := by simp [c4lowOps]
  have e4 : c4lowOps "+" = some (6, .left) := by simp [c4lowOps]
  exact ⟨e1, e2, e3, e4,
    (section_guard_binary_operand c4ops 9 6 .left .left e1 e2).1
      (by norm_num),
    (section_guard_binary_operand c4lowOps 6 6 .left .left e3 e4).2
      (by norm_num)⟩


/-- C6 counterexample: the unsupported unit literal `()` does not raise a
`ParseError` — the source throws a raw string, which the `parse` loop's
`instanceof ParseError` recovery does not catch: nothing is reported to
the external sink and the exception propagates out of `parse`. -/
theorem unit_literal_error_unreported :
    parseFn t1ops 32 [lparTok 0, rparTok 1, eofAt 2] =
      .error (.strThrow "Encountered unit literal, but unit isn't supported yet") := by
  rfl

/-- C6 (amended): `ParseError`-class syntax errors (here: undefined
operator) carry a token, are reported once to the external sink with its
span, and abort the parse — a second erroneous statement is neither
parsed nor reported.  The unsupported type annotation `::`, however,
throws a plain `Error` that is not caught, not reported, and propagates
out of `parse` (as does the unit literal's thrown string). -/
theorem parse_error_reporting_policy :
    parseFn t1ops 32 [identTok "a" 0, operTok "@@" 2, identTok "b" 5,
      lbTok 7, identTok "c" 8, operTok "@@" 10, identTok "d" 13, eofAt 15] =
      .ok ([], some ⟨2, 3, "Undefined operator \x22@@\x22"⟩) ∧
    parseFn t1ops 32 [identTok "x" 0, ccTok 2, eofAt 5] =
      .error (.plainErr "Parsing type annotations isn't supported yet") := by
  constructor
  · rfl
  · rfl


/-! ## Interpreter claims -/

/-- C2: for an application spine `f a b c` — any nesting of `Application`
and transparent `Grouping` nodes over a base `Variable` (bound to a host
callable) or `Section` — evaluation invokes the base callable exactly
once, in a single call receiving all the operands `(a, b, c)` in that
order, not as a chain of one-argument partial applications: the event
trace of the whole spine is the single call event with the full argument
list (Variable base), and the spine evaluation is literally one
application of the section closure to the full operand list (Section
base). -/
theorem application_spine_single_call
    (nativeSem : Nat → List Value → Value) (fuel : Nat) (env : Env)
    (tA tB tC : Token) (a b c : Option Primitive) (E0 E1 E2 E3 : Expr)
    (h1 : UnwrapsTo E1 (.application E0 (.literal a tA)))
    (h2 : UnwrapsTo E2 (.application E1 (.literal b tB)))
    (h3 : UnwrapsTo E3 (.application E2 (.literal c tC))) :
    (∀ (f : Token) (ty : String) (n : Nat),
      lookupEnv env f.lexeme = some ⟨ty, .native n⟩ →
      UnwrapsTo E0 (.var f) →
      evaluate nativeSem (fuel + 2) env E3 =
        .ok (nativeSem n [primOrUndef a, primOrUndef b, primOrUndef c],
          [.call n [primOrUndef a, primOrUndef b, primOrUndef c]])) ∧
    (∀ (op : Token) (x : Expr) (side : Side),
      UnwrapsTo E0 (.sect op x side) →
      evaluate nativeSem (fuel + 2) env E3 =
        applyV nativeSem fuel env (.closV (.sectionC op x side))
          [primOrUndef a, primOrUndef b, primOrUndef c]) := by
  have u3 := fun fl => (unwrapsTo_evaluate h3 nativeSem fl env).1
  have u2 := fun fl => (unwrapsTo_evaluate h2 nativeSem fl env).2
  have u1 := fun fl => (unwrapsTo_evaluate h1 nativeSem fl env).2
  constructor
  · intro f ty n hf h0
    have u0 := fun fl => (unwrapsTo_evaluate h0 nativeSem fl env).2
    simp [evaluate, curryF, applyV, u0, u1, u2, u3, hf]
  · intro op x side h0
    have u0 := fun fl => (unwrapsTo_evaluate h0 nativeSem fl env).2
    simp [evaluate, curryF, applyV, u0, u1, u2, u3]
    cases happ : applyV nativeSem fuel env (.closV (.sectionC op x side))
        [primOrUndef a, primOrUndef b, primOrUndef c] with
    | error e => simp [happ]
    | ok v => simp [happ]

/-- Witness for C2: `(f) 1 2 3` with `f` bound to host callable 0 — one
call event with arguments `[1, 2, 3]`. -/
theorem application_spine_single_call_witness :
    lookupEnv w2Env fTok.lexeme = some ⟨"", .native 0⟩ ∧
    evaluate demoSem 2 w2Env w2E3 =
      .ok (.prim (.num 0),
        [.call 0 [.prim (.num 1), .prim (.num 2), .prim (.num 3)]]) := by
  have hl : lookupEnv w2Env fTok.lexeme = some ⟨"", .native 0⟩ := by
    simp [w2Env, lookupEnv, fTok, identTok]
  refine ⟨hl, ?_⟩
  have h := (application_spine_single_call demoSem 0 w2Env (numTok 1 4)
      (numTok 2 6) (numTok 3 8) (some (.num 1)) (some (.num 2)) (some (.num 3))
      w2E0 w2E1 w2E2 w2E3 (.refl _) (.refl _) (.refl _)).1 fTok "" 0 hl
      (.group _ _ (.refl _))
  simpa [demoSem, primOrUndef] using h

/-- C3: sections round-trip against binary application.  With `op` bound
to a binary host callable, evaluating `Section(op, x, left)` yields a
closure; applying it to `y` yields the same value as evaluating
`Binary(ey, op, x)` where `ey` evaluates to `y`, namely
`op(y, evaluate x)`; symmetrically `Section(op, x, right)` applied to `y`
yields the value of `Binary(x, op, ey)`, namely `op(evaluate x, y)`. -/
theorem section_roundtrip_binary
    (nativeSem : Nat → List Value → Value) (fuel : Nat) (env : Env)
    (op : Token) (x ey : Expr) (p : Nat) (ty : String) (n : Nat)
    (y vx : Value) (tx tyr : List Event)
    (hop : lookupEnv env op.lexeme = some ⟨ty, .native n⟩)
    (hx : evaluate nativeSem fuel env x = .ok (vx, tx))
    (hey : evaluate nativeSem fuel env ey = .ok (y, tyr)) :
    (evaluate nativeSem fuel env (.sect op x .left) =
      .ok (.closV (.sectionC op x .left), [])) ∧
    (applyV nativeSem (fuel + 1) env (.closV (.sectionC op x .left)) [y] =
      .ok (nativeSem n [y, vx], tx ++ [.call n [y, vx]])) ∧
    (evaluate nativeSem fuel env (.binary ey op x p) =
      .ok (nativeSem n [y, vx], tyr ++ tx ++ [.call n [y, vx]])) ∧
    (applyV nativeSem (fuel + 1) env (.closV (.sectionC op x .right)) [y] =
      .ok (nativeSem n [vx, y], tx ++ [.call n [vx, y]])) ∧
    (evaluate nativeSem fuel env (.binary x op ey p) =
      .ok (nativeSem n [vx, y], tx ++ tyr ++ [.call n [vx, y]])) := by
  refine ⟨?_, ?_, ?_, ?_, ?_⟩ <;>
    simp [evaluate, applyV, hop, hx, hey]

/-- Witness for C3: `(+ 5)` applied to `7` and `7 + 5` both evaluate to
the same host-callable result. -/
theorem section_roundtrip_binary_witness :
    lookupEnv sectEnv plusT.lexeme = some ⟨"", .native 0⟩ ∧
    applyV demoSem 2 sectEnv
        (.closV (.sectionC plusT (.literal (some (.num 5)) (numTok 5 2)) .left))
        [.prim (.num 7)] =
      .ok (.prim (.num 0), [.call 0 [.prim (.num 7), .prim (.num 5)]]) ∧
    evaluate demoSem 1 sectEnv
        (.binary (.literal (some (.num 7)) (numTok 7 0)) plusT
          (.literal (some (.num 5)) (numTok 5 2)) 6) =
      .ok (.prim (.num 0), [.call 0 [.prim (.num 7), .prim (.num 5)]]) := by
  have hop : lookupEnv sectEnv plusT.lexeme = some ⟨"", .native 0⟩ := by
    simp [sectEnv, lookupEnv, plusT, operTok]
  have hx : evaluate demoSem 1 sectEnv
      (.literal (some (.num 5)) (numTok 5 2)) = .ok (.prim (.num 5), []) := by
    simp [evaluate, primOrUndef]
  have hy : evaluate demoSem 1 sectEnv
      (.literal (some (.num 7)) (numTok 7 0)) = .ok (.prim (.num 7), []) := by
    simp [evaluate, primOrUndef]
  have h := section_roundtrip_binary demoSem 1 sectEnv plusT
      (.literal (some (.num 5)) (numTok 5 2))
      (.literal (some (.num 7)) (numTok 7 0)) 6 "" 0
      (.prim (.num 7)) (.prim (.num 5)) [] [] hop hx hy
  exact ⟨hop, by simpa using h.2.1, by simpa using h.2.2.1⟩

/-- C5 counterexample: the claim says spine operands are evaluated in
left-to-right order, but for `f (g1 1) (g2 2) (g3 3)` the event trace
begins with the call of `g2` (the *second* operand), then `g3`, then
`g1`, then `f` — the leftmost operand's effects do not happen first. -/
theorem operand_order_not_left_to_right :
    evaluate demoSem 5 cexEnv cexSpine =
      .ok (.prim (.num 0),
        [.call 2 [.prim (.num 2)], .call 3 [.prim (.num 3)],
         .call 1 [.prim (.num 1)],
         .call 0 [.prim (.num 1), .prim (.num 2), .prim (.num 3)]]) ∧
    ([Event.call 2 [.prim (.num 2)], .call 3 [.prim (.num 3)],
      .call 1 [.prim (.num 1)],
      .call 0 [.prim (.num 1), .prim (.num 2), .prim (.num 3)]].head? ≠
      some (.call 1 [.prim (.num 1)])) := by
  constructor
  · simp [evaluate, curryF, applyV, cexEnv, cexSpine, gCall, lookupEnv,
      identTok, numTok, demoSem, primOrUndef]
  · simp

/-- C5 (amended): for the spine `f E1 E2 E3` with `f` bound to a host
callable, each operand is evaluated exactly once and the callable is
invoked last, once, with all operand values in order — but the operand
evaluation order is `E2`, then `E3`, then `E1`, as the composed event
trace `t2 ++ t3 ++ t1 ++ [call]` shows. -/
theorem application_spine_operand_order
    (nativeSem : Nat → List Value → Value) (fuel : Nat) (env : Env)
    (f : Token) (ty : String) (n : Nat) (E1 E2 E3 : Expr)
    (v1 v2 v3 : Value) (t1 t2 t3 : List Event)
    (hf : lookupEnv env f.lexeme = some ⟨ty, .native n⟩)
    (h2 : evaluate nativeSem (fuel + 2) env E2 = .ok (v2, t2))
    (h3 : evaluate nativeSem (fuel + 2) env E3 = .ok (v3, t3))
    (h1 : evaluate nativeSem (fuel + 1) env E1 = .ok (v1, t1)) :
    evaluate nativeSem (fuel + 2) env
      (.application (.application (.application (.var f) E1) E2) E3) =
      .ok (nativeSem n [v1, v2, v3],
        t2 ++ t3 ++ t1 ++ [.call n [v1, v2, v3]]) := by
  simp [evaluate, curryF, applyV, hf, h1, h2, h3]

/-- Witness for C5's amended theorem at the concrete spine
`f (g1 1) (g2 2) (g3 3)`. -/
theorem application_spine_operand_order_witness :
    lookupEnv cexEnv "f" = some ⟨"", .native 0⟩ ∧
    evaluate demoSem 5 cexEnv (gCall "g2" 9 2) =
      .ok (.prim (.num 2), [.call 2 [.prim (.num 2)]]) ∧
    evaluate demoSem 5 cexEnv (gCall "g3" 16 3) =
      .ok (.prim (.num 3), [.call 3 [.prim (.num 3)]]) ∧
    evaluate demoSem 4 cexEnv (gCall "g1" 2 1) =
      .ok (.prim (.num 1), [.call 1 [.prim (.num 1)]]) ∧
    evaluate demoSem 5 cexEnv cexSpine =
      .ok (.prim (.num 0),
        [.call 2 [.prim (.num 2)], .call 3 [.prim (.num 3)],
         .call 1 [.prim (.num 1)],
         .call 0 [.prim (.num 1), .prim (.num 2), .prim (.num 3)]]) := by
  have hf : lookupEnv cexEnv "f" = some ⟨"", .native 0⟩ := by
    simp [cexEnv, lookupEnv]
  have h2 : evaluate demoSem 5 cexEnv (gCall "g2" 9 2) =
      .ok (.prim (.num 2), [.call 2 [.prim (.num 2)]]) := by
    simp [evaluate, curryF, applyV, gCall, lookupEnv, cexEnv, identTok,
      numTok, demoSem, primOrUndef]
  have h3 : evaluate demoSem 5 cexEnv (gCall "g3" 16 3) =
      .ok (.prim (.num 3), [.call 3 [.prim (.num 3)]]) := by
    simp [evaluate, curryF, applyV, gCall, lookupEnv, cexEnv, identTok,
      numTok, demoSem, primOrUndef]
  have h1 : evaluate demoSem 4 cexEnv (gCall "g1" 2 1) =
      .ok (.prim (.num 1), [.call 1 [.prim (.num 1)]]) := by
    simp [evaluate, curryF, applyV, gCall, lookupEnv, cexEnv, identTok,
      numTok, demoSem, primOrUndef]
  have h := application_spine_operand_order demoSem 3 cexEnv
      (identTok "f" 0) "" 0 (gCall "g1" 2 1) (gCall "g2" 9 2)
      (gCall "g3" 16 3) (.prim (.num 1)) (.prim (.num 2)) (.prim (.num 3))
      [.call 1 [.prim (.num 1)]] [.call 2 [.prim (.num 2)]]
      [.call 3 [.prim (.num 3)]] (by simpa [identTok] using hf) h2 h3 h1
  exact ⟨hf, h2, h3, h1, by simpa [demoSem, cexSpine] using h⟩

/-- C7: an unbound `Variable` or an unbound `Binary` operator throws a
`RuntimeError` carrying the offending token (naming the variable in the
unbound-variable case); `interpret` reports it once to the external sink
with the token's source span, and no statement after the failing one in
the batch is executed (the result is independent of `rest` and contains
no effects, results, or environment writes from it). -/
theorem runtime_errors_reported_and_abort
    (nativeSem : Nat → List Value → Value)
    (compile : List String → String → Nat) (fuel : Nat) (env : Env)
    (rest : List Stmt) :
    (∀ v : Token, lookupEnv env v.lexeme = none →
      execute nativeSem compile fuel env (.expression (.var v)) =
        .error (.runtime v
          ("Variable \x22" ++ v.lexeme ++ "\x22 is undefined")) ∧
      interpret nativeSem compile fuel env (.expression (.var v) :: rest) =
        .ok ([], env, [], some ⟨v.fromPos, v.toPos,
          "Variable \x22" ++ v.lexeme ++ "\x22 is undefined"⟩)) ∧
    (∀ (op tA tB : Token) (a b : Option Primitive) (p : Nat),
      lookupEnv env op.lexeme = none →
      execute nativeSem compile fuel env
          (.expression (.binary (.literal a tA) op (.literal b tB) p)) =
        .error (.runtime op "Operator isn't implemented") ∧
      interpret nativeSem compile fuel env
          (.expression (.binary (.literal a tA) op (.literal b tB) p) :: rest) =
        .ok ([], env, [],
          some ⟨op.fromPos, op.toPos, "Operator isn't implemented"⟩)) := by
  constructor
  · intro v hv
    constructor
    · simp [execute, evaluate, hv]
    · simp [interpret, interpretGo, execute, evaluate, hv]
  · intro op tA tB a b p hop
    constructor
    · simp [execute, evaluate, hop]
    · simp [interpret, interpretGo, execute, evaluate, hop]

/-- Witness for C7: referencing unbound `zz` reports once with its span
and the following statement is not executed. -/
theorem runtime_errors_reported_and_abort_witness :
    lookupEnv w2Env "zz" = none ∧
    interpret demoSem demoCompile 1 w2Env
        [.expression (.var (identTok "zz" 6)), .expression (.var fTok)] =
      .ok ([], w2Env, [],
        some ⟨6, 7, "Variable \x22zz\x22 is undefined"⟩) := by
  have hv : lookupEnv w2Env (identTok "zz" 6).lexeme = none := by
    simp [w2Env, lookupEnv, identTok]
  refine ⟨by simpa [identTok] using hv, ?_⟩
  have h := ((runtime_errors_reported_and_abort demoSem demoCompile 1 w2Env
      [.expression (.var fTok)]).1 (identTok "zz" 6) hv).2
  simpa [identTok] using h

/-- C8: executing a `Binding` with zero declared arguments invokes the
compiled callable immediately, exactly once (one call event, at binding
time), and stores its return value under the bound name; with one or
more declared arguments the compiled callable itself is stored uninvoked
(no call event).  In both cases the entry is created or overwritten
(last write wins under `lookupEnv`) and no printable statement result is
produced. -/
theorem binding_zero_arg_eager
    (nativeSem : Nat → List Value → Value)
    (compile : List String → String → Nat) (fuel : Nat) (env : Env)
    (name initializer : Token) (src : String)
    (hinit : initializer.literal = some (.str src)) :
    (execute nativeSem compile fuel env (.binding name [] initializer) =
      .ok (.undef,
        insertEnv env name.lexeme ⟨"", nativeSem (compile [] src) []⟩,
        [.call (compile [] src) []])) ∧
    (∀ (a : Token) (args : List Token),
      execute nativeSem compile fuel env (.binding name (a :: args) initializer) =
        .ok (.undef, insertEnv env name.lexeme
          ⟨"", .native (compile (a.lexeme :: args.map (fun t => t.lexeme)) src)⟩,
          [])) ∧
    (∀ entry : BindingEntry,
      lookupEnv (insertEnv env name.lexeme entry) name.lexeme = some entry) ∧
    (interpret nativeSem compile fuel env [.binding name [] initializer] =
      .ok ([], insertEnv env name.lexeme ⟨"", nativeSem (compile [] src) []⟩,
        [.call (compile [] src) []], none)) := by
  refine ⟨?_, ?_, ?_, ?_⟩
  · simp [execute, hinit]
  · intro a args
    simp [execute, hinit]
  · intro entry
    simp [lookupEnv, insertEnv]
  · simp [interpret, interpretGo, execute, hinit]

/-- Witness for C8: `k = <code>` with zero arguments stores the call's
result and records exactly one call event; the batch prints nothing. -/
theorem binding_zero_arg_eager_witness :
    (⟨.codeLiteral, "code", some (.str "return 42"), 4, 14⟩ : Token).literal =
      some (.str "return 42") ∧
    execute demoSem demoCompile 1 []
        (.binding (identTok "k" 0) []
          ⟨.codeLiteral, "code", some (.str "return 42"), 4, 14⟩) =
      .ok (.undef, [("k", ⟨"", .prim (.num 9)⟩)], [.call 9 []]) ∧
    interpret demoSem demoCompile 1 []
        [.binding (identTok "k" 0) []
          ⟨.codeLiteral, "code", some (.str "return 42"), 4, 14⟩] =
      .ok ([], [("k", ⟨"", .prim (.num 9)⟩)], [.call 9 []], none) := by
  have h := binding_zero_arg_eager demoSem demoCompile 1 []
      (identTok "k" 0) ⟨.codeLiteral, "code", some (.str "return 42"), 4, 14⟩
      "return 42" rfl
  refine ⟨rfl, ?_, ?_⟩
  · have := h.1
    simpa [demoSem, demoCompile, insertEnv, identTok] using this
  · have := h.2.2.2
    simpa [demoSem, demoCompile, insertEnv, identTok] using this

/-- C9 counterexample: the claim says the section closure closes over the
operand's value pre-evaluated once at section-creation time, but
evaluating `Section(+, g 1, left)` produces an *empty* event trace — the
effectful operand `g 1` is not evaluated at creation — and the closure
stores the unevaluated operand expression; invoking the closure is what
triggers `g`'s call (and would again on every invocation). -/
theorem section_operand_not_preevaluated :
    evaluate demoSem 5 sectEnv (.sect plusT sectOperand .left) =
      .ok (.closV (.sectionC plusT sectOperand .left), []) ∧
    applyV demoSem 5 sectEnv (.closV (.sectionC plusT sectOperand .left))
        [.prim (.num 7)] =
      .ok (.prim (.num 0),
        [.call 1 [.prim (.num 1)], .call 0 [.prim (.num 7), .prim (.num 1)]]) := by
  constructor
  · simp [evaluate]
  · simp [applyV, evaluate, curryF, lookupEnv, sectEnv, plusT, gTok,
      sectOperand, demoSem, operTok, identTok, numTok, primOrUndef]

/-- C9 (amended): evaluating a `Section` produces a one-argument callable
that closes over the *unevaluated* operand expression and performs no
evaluation at creation (empty trace); each invocation of the callable
first looks the operator up in the invocation-time environment (late
binding) and then evaluates the operand expression (whose effects `tx`
appear in that invocation's trace), so the operand is re-evaluated on
every invocation rather than pre-evaluated once. -/
theorem section_defers_operand_and_lookup
    (nativeSem : Nat → List Value → Value) (fuel : Nat) (env : Env)
    (op : Token) (x : Expr) (ty : String) (n : Nat) (y vx : Value)
    (tx : List Event)
    (hop : lookupEnv env op.lexeme = some ⟨ty, .native n⟩)
    (hx : evaluate nativeSem fuel env x = .ok (vx, tx)) :
    (∀ side : Side, evaluate nativeSem fuel env (.sect op x side) =
      .ok (.closV (.sectionC op x side), [])) ∧
    (applyV nativeSem (fuel + 1) env (.closV (.sectionC op x .left)) [y] =
      .ok (nativeSem n [y, vx], tx ++ [.call n [y, vx]])) ∧
    (applyV nativeSem (fuel + 1) env (.closV (.sectionC op x .right)) [y] =
      .ok (nativeSem n [vx, y], tx ++ [.call n [vx, y]])) := by
  refine ⟨fun side => by simp [evaluate], ?_, ?_⟩ <;>
    simp [applyV, hop, hx]

/-- Witness for C9's amended theorem: creating `(+ (g 1))` traces
nothing; invoking it traces `g`'s call followed by `+`'s call. -/
theorem section_defers_operand_and_lookup_witness :
    lookupEnv sectEnv plusT.lexeme = some ⟨"", .native 0⟩ ∧
    evaluate demoSem 1 sectEnv sectOperand =
      .ok (.prim (.num 1), [.call 1 [.prim (.num 1)]]) ∧
    evaluate demoSem 1 sectEnv (.sect plusT sectOperand .left) =
      .ok (.closV (.sectionC plusT sectOperand .left), []) ∧
    applyV demoSem 2 sectEnv (.closV (.sectionC plusT sectOperand .left))
        [.prim (.num 7)] =
      .ok (.prim (.num 0),
        [.call 1 [.prim (.num 1)], .call 0 [.prim (.num 7), .prim (.num 1)]]) := by
  have hop : lookupEnv sectEnv plusT.lexeme = some ⟨"", .native 0⟩ := by
    simp [sectEnv, lookupEnv, plusT, operTok]
  have hx : evaluate demoSem 1 sectEnv sectOperand =
      .ok (.prim (.num 1), [.call 1 [.prim (.num 1)]]) := by
    simp [evaluate, curryF, applyV, sectOperand, lookupEnv, sectEnv, gTok,
      identTok, demoSem, primOrUndef]
  have h := section_defers_operand_and_lookup demoSem 1 sectEnv plusT
      sectOperand "" 0 (.prim (.num 7)) (.prim (.num 1))
      [.call 1 [.prim (.num 1)]] hop hx
  exact ⟨hop, hx, h.1 .left, by simpa [demoSem] using h.2.1⟩

/-- `interpretGo` on an appended batch: the suffix runs only when the
prefix finished without a report; a report or an uncaught error from the
prefix is the whole result. -/
theorem interpretGo_append
    (nativeSem : Nat → List Value → Value)
    (compile : List String → String → Nat) (fuel : Nat)
    (stmts2 : List Stmt) :
    ∀ (stmts1 : List Stmt) (env : Env) (res : List String)
      (tr : List Event),
    interpretGo nativeSem compile fuel env res tr (stmts1 ++ stmts2) =
      match interpretGo nativeSem compile fuel env res tr stmts1 with
      | .ok (r, e, t, none) => interpretGo nativeSem compile fuel e r t stmts2
      | .ok (r, e, t, some rep) => .ok (r, e, t, some rep)
      | .error err => .error err := by
  intro stmts1
  induction stmts1 with
  | nil => intro env res tr; simp [interpretGo]
  | cons s rest ih =>
    intro env res tr
    simp only [List.cons_append, interpretGo]
    cases hex : execute nativeSem compile fuel env s with
    | error e =>
      cases e <;> simp [interpretGo, hex]
    | ok val =>
      obtain ⟨v, env2, t⟩ := val
      cases v <;> simp [interpretGo, hex, ih]

/-- C10: when a `RuntimeError` occurs while executing statement N of a
batch, `interpret` reports it to the sink and still *returns* the
printable results already collected from statements 1..N-1 (together
with the environment and effects as of the failure); the partial results
are not discarded by `interpret` itself, and the statements after N do
not run. -/
theorem interpret_returns_partial_results
    (nativeSem : Nat → List Value → Value)
    (compile : List String → String → Nat) (fuel : Nat) (env : Env)
    (pre rest : List Stmt) (bad : Stmt) (results : List String)
    (env2 : Env) (trace : List Event) (tok : Token) (msg : String)
    (hpre : interpret nativeSem compile fuel env pre =
      .ok (results, env2, trace, none))
    (hbad : execute nativeSem compile fuel env2 bad =
      .error (.runtime tok msg)) :
    interpret nativeSem compile fuel env (pre ++ bad :: rest) =
      .ok (results, env2, trace, some ⟨tok.fromPos, tok.toPos, msg⟩) := by
  unfold interpret at hpre ⊢
  rw [interpretGo_append, hpre]
  simp [interpretGo, hbad]

/-- Witness for C10: the batch prints `"hi"`, then fails on unbound `zz`;
`interpret` returns `["hi"]` with the report, and the trailing statement
does not run. -/
theorem interpret_returns_partial_results_witness :
    interpret demoSem demoCompile 1 w2Env
        [.expression (.literal (some (.str "hi"))
          ⟨.string, "hi", some (.str "hi"), 0, 4⟩)] =
      .ok (["hi"], w2Env, [], none) ∧
    execute demoSem demoCompile 1 w2Env (.expression (.var (identTok "zz" 6))) =
      .error (.runtime (identTok "zz" 6) "Variable \x22zz\x22 is undefined") ∧
    interpret demoSem demoCompile 1 w2Env
        ([.expression (.literal (some (.str "hi"))
          ⟨.string, "hi", some (.str "hi"), 0, 4⟩)] ++
          .expression (.var (identTok "zz" 6)) :: [.expression (.var fTok)]) =
      .ok (["hi"], w2Env, [], some ⟨6, 7, "Variable \x22zz\x22 is undefined"⟩) := by
  have hpre : interpret demoSem demoCompile 1 w2Env
      [.expression (.literal (some (.str "hi"))
        ⟨.string, "hi", some (.str "hi"), 0, 4⟩)] =
      .ok (["hi"], w2Env, [], none) := by
    simp [interpret, interpretGo, execute, evaluate, primOrUndef, stringify]
  have hbad : execute demoSem demoCompile 1 w2Env
      (.expression (.var (identTok "zz" 6))) =
      .error (.runtime (identTok "zz" 6) "Variable \x22zz\x22 is undefined") := by
    simp [execute, evaluate, lookupEnv, w2Env, identTok, fTok]
  have h := interpret_returns_partial_results demoSem demoCompile 1 w2Env
      [.expression (.literal (some (.str "hi"))
        ⟨.string, "hi", some (.str "hi"), 0, 4⟩)]
      [.expression (.var fTok)] (.expression (.var (identTok "zz" 6)))
      ["hi"] w2Env [] (identTok "zz" 6) "Variable \x22zz\x22 is undefined"
      hpre hbad
  exact ⟨hpre, hbad, by simpa [identTok] using h⟩

end Weft
